import Mathlib

/-!
Shallow embedding of the NAND controller stack of wipeseals/nandio.pio
(sim/nandio_pio.py, src/nandio_pio.py, mpy/driver.py, mpy/ftl.py), with
theorems settling the spec claims C1 .. C10.

Byte strings (Python `bytearray`) are embedded as `List Nat`, Python
unbounded integers as `Nat` (all values in the modelled code are
non-negative), bitmaps as `Nat` with one bit per block, and fallible
operations as `Except String` / `Option` mirroring Python exceptions and
`None` returns.
-/

set_option maxRecDepth 20000

/-! ## Device geometry (sim/nandio_pio.py, class NandConfig) -/

/-- NandConfig.MAX_CS. -/
def NandConfig.MAX_CS : Nat := 2

/-- NandConfig.PAGE_USABLE_BYTES. -/
def NandConfig.PAGE_USABLE_BYTES : Nat := 2048

/-- NandConfig.PAGE_SPARE_BYTES. -/
def NandConfig.PAGE_SPARE_BYTES : Nat := 128

/-- NandConfig.PAGE_ALL_BYTES = PAGE_USABLE_BYTES + PAGE_SPARE_BYTES. -/
def NandConfig.PAGE_ALL_BYTES : Nat :=
  NandConfig.PAGE_USABLE_BYTES + NandConfig.PAGE_SPARE_BYTES

/-- NandConfig.PAGES_PER_BLOCK. -/
def NandConfig.PAGES_PER_BLOCK : Nat := 64

/-- NandConfig.BLOCKS_PER_CS. -/
def NandConfig.BLOCKS_PER_CS : Nat := 1024

/-- NandConfig.SECTOR_BYTES. -/
def NandConfig.SECTOR_BYTES : Nat := 512

/-- NandConfig.SECTOR_PER_PAGE = PAGE_USABLE_BYTES // SECTOR_BYTES. -/
def NandConfig.SECTOR_PER_PAGE : Nat :=
  NandConfig.PAGE_USABLE_BYTES / NandConfig.SECTOR_BYTES

/-- NandStatus.PROGRAM_ERASE_FAIL (status low bit). -/
def NandStatus.PROGRAM_ERASE_FAIL : Nat := 0x01

/-! ## Pin assignment (identical in sim/nandio_pio.py and src/nandio_pio.py) -/

def PinAssign.IO0 : Nat := 0
def PinAssign.IO1 : Nat := 1
def PinAssign.IO2 : Nat := 2
def PinAssign.IO3 : Nat := 3
def PinAssign.IO4 : Nat := 4
def PinAssign.IO5 : Nat := 5
def PinAssign.IO6 : Nat := 6
def PinAssign.IO7 : Nat := 7
def PinAssign.CEB0 : Nat := 8
def PinAssign.CEB1 : Nat := 9
def PinAssign.CLE : Nat := 10
def PinAssign.ALE : Nat := 11
def PinAssign.WPB : Nat := 12
def PinAssign.WEB : Nat := 13
def PinAssign.REB : Nat := 14
def PinAssign.RBB : Nat := 15

/-- Util.bit_on: value with only the given bit set (`0x01 << bit_pos`). -/
def Util.bit_on (bit_pos : Nat) : Nat := 0x01 <<< bit_pos

/-- PIN_DIR_WRITE as defined in sim/nandio_pio.py (includes the WPB bit). -/
def PIN_DIR_WRITE_sim : Nat :=
  Util.bit_on PinAssign.REB
  ||| Util.bit_on PinAssign.WEB
  ||| Util.bit_on PinAssign.WPB
  ||| Util.bit_on PinAssign.ALE
  ||| Util.bit_on PinAssign.CLE
  ||| Util.bit_on PinAssign.CEB1
  ||| Util.bit_on PinAssign.CEB0
  ||| Util.bit_on PinAssign.IO7
  ||| Util.bit_on PinAssign.IO6
  ||| Util.bit_on PinAssign.IO5
  ||| Util.bit_on PinAssign.IO4
  ||| Util.bit_on PinAssign.IO3
  ||| Util.bit_on PinAssign.IO2
  ||| Util.bit_on PinAssign.IO1
  ||| Util.bit_on PinAssign.IO0

/-- PIN_DIR_WRITE as defined in src/nandio_pio.py: the WPB term is absent
from the bitwise-or chain, although the adjacent comment says every pin
except RBB is an output. -/
def PIN_DIR_WRITE_src : Nat :=
  Util.bit_on PinAssign.REB
  ||| Util.bit_on PinAssign.WEB
  ||| Util.bit_on PinAssign.ALE
  ||| Util.bit_on PinAssign.CLE
  ||| Util.bit_on PinAssign.CEB1
  ||| Util.bit_on PinAssign.CEB0
  ||| Util.bit_on PinAssign.IO7
  ||| Util.bit_on PinAssign.IO6
  ||| Util.bit_on PinAssign.IO5
  ||| Util.bit_on PinAssign.IO4
  ||| Util.bit_on PinAssign.IO3
  ||| Util.bit_on PinAssign.IO2
  ||| Util.bit_on PinAssign.IO1
  ||| Util.bit_on PinAssign.IO0

/-- PIN_DIR_READ (identical in both modules). -/
def PIN_DIR_READ : Nat :=
  Util.bit_on PinAssign.REB
  ||| Util.bit_on PinAssign.WEB
  ||| Util.bit_on PinAssign.WPB
  ||| Util.bit_on PinAssign.ALE
  ||| Util.bit_on PinAssign.CLE
  ||| Util.bit_on PinAssign.CEB1
  ||| Util.bit_on PinAssign.CEB0

/-! ## Address codec (NandAddr, identical byte values in both modules;
the sim variant appends the bytes to an array, the src variant returns
the list directly) -/

/-- NandAddr.create_full_addr: the four address-cycle bytes appended for
(column_addr, page_addr, block_addr). -/
def NandAddr.create_full_addr (column_addr page_addr block_addr : Nat) : List Nat :=
  let ca := column_addr &&& 0xFFF
  let pa := (page_addr &&& 0x3F) ||| ((block_addr &&& 0x3FF) <<< 6)
  [ca &&& 0xFF, (ca >>> 8) &&& 0x0F, pa &&& 0xFF, (pa >>> 8) &&& 0xFF]

/-- NandAddr.create_block_addr: the two block-address bytes (little endian). -/
def NandAddr.create_block_addr (block_addr : Nat) : List Nat :=
  [block_addr &&& 0xFF, (block_addr >>> 8) &&& 0xFF]

/-! ## Command program header (PioCmdBuilder.create_cmd_header, identical
word values in both modules) -/

/-- PioCmdBuilder.create_cmd_header: the two header words; word 0 packs
cmd_id, transfer_count - 1 and the pin-direction mask, word 1 is the
optional argument (0 when absent). -/
def PioCmdBuilder.create_cmd_header (cmd_id pindir transfer_count : Nat)
    (cmd1 : Option Nat) : List Nat :=
  [((cmd_id &&& 0xF) <<< 28)
      ||| ((((transfer_count - 1) &&& 0x0FFF) <<< 16) ||| (pindir &&& 0xFFFF)),
    cmd1.getD 0x00000000]

/-! ## Commander result contracts (mpy/driver.py)

The pin toggling and DMA plumbing are I/O; the Boolean results of
erase_block / program_page depend only on the busy-wait outcome and the
status byte read afterwards, which enter the models as parameters. -/

/-- FwNandCommander.erase_block result: False when wait_busy timed out,
otherwise the PROGRAM_ERASE_FAIL bit of the following status read must
be clear. -/
def FwNandCommander.erase_block_result (busy_ok : Bool) (status : Nat) : Bool :=
  if !busy_ok then false
  else (status &&& NandStatus.PROGRAM_ERASE_FAIL) == 0

/-- FwNandCommander.program_page result: same shape as erase_block. -/
def FwNandCommander.program_page_result (busy_ok : Bool) (status : Nat) : Bool :=
  if !busy_ok then false
  else (status &&& NandStatus.PROGRAM_ERASE_FAIL) == 0

/-- PioNandCommander.erase_block result. The command program contains a
WaitRbb step before the status read; the PIO busy-wait blocks without a
timeout, so the function only returns after the wait succeeded, and the
received status byte decides the result. -/
def PioNandCommander.erase_block_result (status : Nat) : Bool :=
  (status &&& NandStatus.PROGRAM_ERASE_FAIL) == 0

/-- PioNandCommander.program_page result: same shape as erase_block. -/
def PioNandCommander.program_page_result (status : Nat) : Bool :=
  (status &&& NandStatus.PROGRAM_ERASE_FAIL) == 0

/-! ## Physical address codec -/

/-- Modelled from the spec: `NandConfig.encode_phys_addr` is called at
mpy/ftl.py:384 but is not defined in any file under src/. Spec section 3:
"A Physical Block Address (PBA) encodes (chip, block, page, sector) into
one integer. The encoding is injective and stable across runs"; geometry
from section 3 (2 chips, 1024 blocks, 64 pages, 4 sectors). -/
def NandConfig.encode_phys_addr (chip block page sector : Nat) : Nat :=
  ((chip * NandConfig.BLOCKS_PER_CS + block) * NandConfig.PAGES_PER_BLOCK + page)
      * NandConfig.SECTOR_PER_PAGE + sector

/-- Modelled from the spec: `NandConfig.decode_phys_addr` is called at
mpy/ftl.py:364 but is not defined in any file under src/. Inverse of
`NandConfig.encode_phys_addr` on in-range tuples. -/
def NandConfig.decode_phys_addr (pba : Nat) : Nat × Nat × Nat × Nat :=
  (pba / (NandConfig.SECTOR_PER_PAGE * NandConfig.PAGES_PER_BLOCK * NandConfig.BLOCKS_PER_CS),
    pba / (NandConfig.SECTOR_PER_PAGE * NandConfig.PAGES_PER_BLOCK) % NandConfig.BLOCKS_PER_CS,
    pba / NandConfig.SECTOR_PER_PAGE % NandConfig.PAGES_PER_BLOCK,
    pba % NandConfig.SECTOR_PER_PAGE)

/-! ## Page codec (mpy/ftl.py, class PageCodec; scramble/ECC/CRC are
commented out in the source, the reference codec is the identity with
zero framing bytes) -/

/-- PageCodec.encode: payload followed by PAGE_SPARE_BYTES zero bytes.
The Python body asserts `len(data) == PAGE_USABLE_BYTES`; theorems about
it carry that length as a hypothesis. -/
def PageCodec.encode (data : List Nat) : List Nat :=
  data ++ List.replicate NandConfig.PAGE_SPARE_BYTES 0x00

/-- PageCodec.decode: truncation to PAGE_USABLE_BYTES, always `some`.
The Python body asserts `len(data) == PAGE_ALL_BYTES` and otherwise
unconditionally returns `data[:PAGE_USABLE_BYTES]`; no code path returns
None. -/
def PageCodec.decode (data : List Nat) : Option (List Nat) :=
  some (data.take NandConfig.PAGE_USABLE_BYTES)

/-! ## Block manager (mpy/ftl.py, class NandBlockManager) -/

/-- State of NandBlockManager: chip count and the per-chip bad-block and
allocated bitmaps (Python unbounded ints, one bit per block). -/
structure BMState where
  num_chip : Nat
  badblock_bitmaps : List Nat
  allocated_bitmaps : List Nat
deriving DecidableEq, Repr

/-- NandBlockManager.init, after the I/O parts ran: chip discovery
(_check_chip_num) and the factory bad-block scan (_check_allbadblocks)
talk to the NAND and enter here as parameters num_chip and
badblock_bitmaps; the final loop of init sets
allocated_bitmaps[c] := badblock_bitmaps[c] for every chip. -/
def BMState.init (num_chip : Nat) (badblock_bitmaps : List Nat) : BMState :=
  { num_chip := num_chip
    badblock_bitmaps := badblock_bitmaps
    allocated_bitmaps :=
      (List.range num_chip).map fun c => badblock_bitmaps.getD c 0 }

/-- Free-block test used by NandBlockManager._pick_free: the block is
neither allocated nor bad. -/
def BMState.isFreeBlock (s : BMState) (chip block : Nat) : Bool :=
  ((s.allocated_bitmaps.getD chip 0 &&& (1 <<< block)) == 0)
    && ((s.badblock_bitmaps.getD chip 0 &&& (1 <<< block)) == 0)

/-- Scan order of NandBlockManager._pick_free: chips in index order, and
within a chip blocks in index order. -/
def BMState.scanOrder (s : BMState) : List (Nat × Nat) :=
  (List.range s.num_chip).flatMap fun c =>
    (List.range NandConfig.BLOCKS_PER_CS).map fun b => (c, b)

/-- NandBlockManager._pick_free: the first (chip, block) in scan order
that is neither allocated nor bad, or none. -/
def BMState.pick_free (s : BMState) : Option (Nat × Nat) :=
  s.scanOrder.find? fun cb => s.isFreeBlock cb.1 cb.2

/-- Free blocks of the scan in scan order (specification vocabulary for
the pick_free theorems). -/
def BMState.freeCandidates (s : BMState) : List (Nat × Nat) :=
  s.scanOrder.filter fun cb => s.isFreeBlock cb.1 cb.2

/-- NandBlockManager._mark_alloc: raises when the block is already
allocated, otherwise sets the allocated bit. -/
def BMState.mark_alloc (s : BMState) (chip block : Nat) : Except String BMState :=
  if (s.allocated_bitmaps.getD chip 0 &&& (1 <<< block)) != 0 then
    .error "Block Already Allocated"
  else
    let v := s.allocated_bitmaps.getD chip 0 ||| (1 <<< block)
    .ok { s with allocated_bitmaps := s.allocated_bitmaps.set chip v }

/-- NandBlockManager._mark_free: raises when the block is not allocated,
otherwise clears the allocated bit. Python `x &= ~(1 << block)` on a
non-negative int clears the bit, i.e. bitwise difference. -/
def BMState.mark_free (s : BMState) (chip block : Nat) : Except String BMState :=
  if (s.allocated_bitmaps.getD chip 0 &&& (1 <<< block)) == 0 then
    .error "Block Already Free"
  else
    let v := Nat.ldiff (s.allocated_bitmaps.getD chip 0) (1 <<< block)
    .ok { s with allocated_bitmaps := s.allocated_bitmaps.set chip v }

/-- NandBlockManager._mark_bad: sets the bad bit (and nothing else). -/
def BMState.mark_bad (s : BMState) (chip block : Nat) : BMState :=
  let v := s.badblock_bitmaps.getD chip 0 ||| (1 <<< block)
  { s with badblock_bitmaps := s.badblock_bitmaps.set chip v }

/-- Loop body of NandBlockManager.alloc. The erase issued on the picked
block is I/O; its success enters as the oracle `erase`. The Python loop
terminates because every failed erase marks a previously free block bad;
the fuel argument makes that termination explicit. -/
def BMState.allocGo (erase : Nat → Nat → Bool) : Nat → BMState →
    Except String ((Nat × Nat) × BMState)
  | 0, _ => .error "fuel exhausted"
  | fuel + 1, s =>
    match s.pick_free with
    | none => .error "No Free Block"
    | some (cs, block) =>
      if erase cs block then
        match s.mark_alloc cs block with
        | .ok s' => .ok ((cs, block), s')
        | .error e => .error e
      else
        BMState.allocGo erase fuel (s.mark_bad cs block)

/-- NandBlockManager.alloc. The fuel bound num_chip * BLOCKS_PER_CS + 1
dominates the number of free candidates, which strictly decreases at
every failed erase. -/
def BMState.alloc (erase : Nat → Nat → Bool) (s : BMState) :
    Except String ((Nat × Nat) × BMState) :=
  BMState.allocGo erase (s.num_chip * NandConfig.BLOCKS_PER_CS + 1) s

/-- NandBlockManager.free. -/
def BMState.free (s : BMState) (chip block : Nat) : Except String BMState :=
  s.mark_free chip block

/-- Subset invariant of the claim: on every chip present, every block
marked bad is also marked allocated. -/
def BMState.badSubsetAllocated (s : BMState) : Prop :=
  ∀ c < s.num_chip, ∀ i,
    (s.badblock_bitmaps.getD c 0).testBit i = true →
      (s.allocated_bitmaps.getD c 0).testBit i = true

/-! ## Flash Translation Layer (mpy/ftl.py, classes Mapping and
FlashTranslationLayer)

The NAND behind the commander is modelled as a page store
`nand_pages : (chip, block, page) -> Option page_bytes`; a `none` read
is the commander's timeout result (read_page returning None). Program
success is decided by the oracle `prog`; a successful program deposits
the encoded page in the store. The mapping dict is a function
`LBA -> Option PBA`. -/

structure FtlState where
  bm : BMState
  nand_pages : Nat × Nat × Nat → Option (List Nat)
  mapping : Nat → Option Nat
  write_buffer : List Nat
  write_buffer_lbas : List Nat
  current_write_chip : Option Nat
  current_write_block : Option Nat
  current_write_page : Option Nat
  current_write_sector : Option Nat

/-- Mapping.resolve. -/
def FtlState.resolve (s : FtlState) (lba : Nat) : Option Nat := s.mapping lba

/-- Mapping.update: overwrite the entry for lba. -/
def FtlState.mapUpdate (s : FtlState) (lba pba : Nat) : FtlState :=
  { s with mapping := fun x => if x = lba then some pba else s.mapping x }

/-- FlashTranslationLayer.read_page: read the raw page through the block
manager and decode it; None when either step fails. -/
def FtlState.read_page (s : FtlState) (chip block page : Nat) : Option (List Nat) :=
  match s.nand_pages (chip, block, page) with
  | none => none
  | some page_data =>
    match PageCodec.decode page_data with
    | none => none
    | some decode_page_data => some decode_page_data

/-- FlashTranslationLayer.read_sector: slice one sector out of the
decoded page. -/
def FtlState.read_sector (s : FtlState) (chip block page sector : Nat) :
    Option (List Nat) :=
  match s.read_page chip block page with
  | none => none
  | some page_data =>
    some ((page_data.drop (sector * NandConfig.SECTOR_BYTES)).take
      NandConfig.SECTOR_BYTES)

/-- FlashTranslationLayer.write_page: encode the buffer and program it;
on success the encoded page lands in the NAND store. -/
def FtlState.write_page (prog : Nat → Nat → Nat → Bool) (s : FtlState)
    (chip block page : Nat) (data : List Nat) : Bool × FtlState :=
  let encoded := PageCodec.encode data
  if prog chip block page then
    (true, { s with nand_pages := fun k =>
        if k = (chip, block, page) then some encoded else s.nand_pages k })
  else
    (false, s)

/-- FlashTranslationLayer.unmap_sector: the all-zero sector. -/
def FtlState.unmap_sector : List Nat :=
  List.replicate NandConfig.SECTOR_BYTES 0x0

/-- FlashTranslationLayer.read_logical. The write-buffer hit uses
Python `list.index`, the FIRST position of lba in write_buffer_lbas. -/
def FtlState.read_logical (s : FtlState) (lba : Nat) : List Nat :=
  if s.write_buffer_lbas.contains lba then
    let sector_index := s.write_buffer_lbas.indexOf lba
    (s.write_buffer.drop (sector_index * NandConfig.SECTOR_BYTES)).take
      NandConfig.SECTOR_BYTES
  else
    match s.resolve lba with
    | none => FtlState.unmap_sector
    | some pba =>
      let (chip, block, page, sector) := NandConfig.decode_phys_addr pba
      match s.read_sector chip block page sector with
      | none => FtlState.unmap_sector
      | some sector_data => sector_data

/-- FlashTranslationLayer.write_logical. Uses the block-manager alloc
when no write target is reserved; the buffer splice
`write_buffer[sector*512:(sector+1)*512] = data` is Python slice
assignment, i.e. take/drop around the inserted data. -/
def FtlState.write_logical (erase : Nat → Nat → Bool)
    (prog : Nat → Nat → Nat → Bool) (s : FtlState) (lba : Nat)
    (data : List Nat) : Except String (Bool × FtlState) :=
  let sE : Except String FtlState :=
    if s.current_write_chip = none ∨ s.current_write_block = none
        ∨ s.current_write_page = none ∨ s.current_write_sector = none then
      match s.bm.alloc erase with
      | .error e => .error e
      | .ok ((chip, block), bm') =>
        .ok { s with
              bm := bm'
              current_write_chip := some chip
              current_write_block := some block
              current_write_page := some 0
              current_write_sector := some 0
              write_buffer_lbas := [] }
    else .ok s
  match sE with
  | .error e => .error e
  | .ok s =>
    match s.current_write_chip, s.current_write_block,
        s.current_write_page, s.current_write_sector with
    | some chip, some block, some page, some sector =>
      let pba := NandConfig.encode_phys_addr chip block page sector
      let s := s.mapUpdate lba pba
      let s := { s with write_buffer :=
            s.write_buffer.take (sector * NandConfig.SECTOR_BYTES) ++ data
              ++ s.write_buffer.drop ((sector + 1) * NandConfig.SECTOR_BYTES) }
      let s := { s with write_buffer_lbas := s.write_buffer_lbas ++ [lba] }
      if s.write_buffer_lbas.length < NandConfig.SECTOR_PER_PAGE then
        .ok (true, { s with current_write_sector := some (sector + 1) })
      else
        let (write_result, s) := s.write_page prog chip block page s.write_buffer
        let s := { s with
                   write_buffer_lbas := ([] : List Nat)
                   current_write_sector := some 0
                   current_write_page := some (page + 1) }
        let s :=
          if page + 1 ≥ NandConfig.PAGES_PER_BLOCK then
            { s with
              current_write_chip := (none : Option Nat)
              current_write_block := (none : Option Nat)
              current_write_page := (none : Option Nat)
              current_write_sector := (none : Option Nat) }
          else s
        .ok (write_result, s)
    | _, _, _, _ => .error "write pointer unset"

/-! ## Helper lemmas -/

/-- find? returns the head of the filtered list. -/
theorem find?_eq_filter_head? {α : Type} (p : α → Bool) (l : List α) :
    l.find? p = (l.filter p).head? := by
  induction l with
  | nil => rfl
  | cons x xs ih =>
    cases h : p x
    · rw [List.find?_cons, List.filter_cons, h]
      exact ih
    · rw [List.find?_cons, List.filter_cons, h]
      rfl

/-- Bits of a number below a power of two vanish from that exponent on. -/
theorem testBit_false_of_le {x k i : Nat} (hx : x < 2 ^ k) (hk : k ≤ i) :
    x.testBit i = false :=
  Nat.testBit_lt_two_pow (lt_of_lt_of_le hx (Nat.pow_le_pow_right (by omega) hk))

/-! ## C7 -/

/-- C7: the WRITE pin-direction presets of the two modules. The sim
module's constant is 0x7FFF (bits 0..14, WPB included); the src module's
constant is 0x6FFF: its or-chain omits the WPB term, so bit 12 is clear
and the two constants differ. -/
theorem PIN_DIR_WRITE_src_omits_wpb :
    PIN_DIR_WRITE_sim = 0x7FFF ∧ PIN_DIR_WRITE_src = 0x6FFF ∧
    PIN_DIR_WRITE_src ≠ PIN_DIR_WRITE_sim ∧
    Nat.testBit PIN_DIR_WRITE_sim PinAssign.WPB = true ∧
    Nat.testBit PIN_DIR_WRITE_src PinAssign.WPB = false := by
  refine ⟨by decide, by decide, by decide, by decide, by decide⟩

/-! ## C5 -/

/-- C5: erase_block and program_page of both commanders return true
exactly when the busy-wait succeeded and the low bit
(PROGRAM_ERASE_FAIL = 0x01) of the following status read is clear. The
PIO busy-wait has no timeout, so the PIO results are conditioned only on
the status byte: those calls do not return before the wait completes. -/
theorem commander_erase_program_result_contract :
    ∀ (busy_ok : Bool) (status : Nat),
      (FwNandCommander.erase_block_result busy_ok status = true ↔
        busy_ok = true ∧ status &&& NandStatus.PROGRAM_ERASE_FAIL = 0) ∧
      (FwNandCommander.program_page_result busy_ok status = true ↔
        busy_ok = true ∧ status &&& NandStatus.PROGRAM_ERASE_FAIL = 0) ∧
      (PioNandCommander.erase_block_result status = true ↔
        status &&& NandStatus.PROGRAM_ERASE_FAIL = 0) ∧
      (PioNandCommander.program_page_result status = true ↔
        status &&& NandStatus.PROGRAM_ERASE_FAIL = 0) := by
  intro busy_ok status
  cases busy_ok <;>
    simp [FwNandCommander.erase_block_result, FwNandCommander.program_page_result,
      PioNandCommander.erase_block_result, PioNandCommander.program_page_result]

/-! ## C8 -/

/-- C8: for cmd_id in [0, 15], pindir in [0, 0xFFFF] and
transfer_count in [1, 4096], the first header word equals
(cmd_id << 28) | ((count - 1) << 16) | pindir. -/
theorem create_cmd_header_word0_encoding
    (cmd_id pindir transfer_count : Nat) (cmd1 : Option Nat)
    (h1 : cmd_id ≤ 15) (h2 : pindir ≤ 0xFFFF)
    (h3 : 1 ≤ transfer_count) (h4 : transfer_count ≤ 4096) :
    (PioCmdBuilder.create_cmd_header cmd_id pindir transfer_count cmd1).head? =
      some ((cmd_id <<< 28) ||| ((transfer_count - 1) <<< 16) ||| pindir) := by
  have e1 : cmd_id &&& 0xF = cmd_id := by
    have h := Nat.and_pow_two_sub_one_eq_mod cmd_id 4
    norm_num at h
    rw [h]
    exact Nat.mod_eq_of_lt (by omega)
  have e2 : (transfer_count - 1) &&& 0x0FFF = transfer_count - 1 := by
    have h := Nat.and_pow_two_sub_one_eq_mod (transfer_count - 1) 12
    norm_num at h
    rw [h]
    exact Nat.mod_eq_of_lt (by omega)
  have e3 : pindir &&& 0xFFFF = pindir := by
    have h := Nat.and_pow_two_sub_one_eq_mod pindir 16
    norm_num at h
    rw [h]
    exact Nat.mod_eq_of_lt (by omega)
  simp only [PioCmdBuilder.create_cmd_header, List.head?_cons, e1, e2, e3,
    Nat.or_assoc]

/-- C8 witness: the encoding at cmd_id = 3 (DataOutput), the READ
pin-direction value 0x7F00, transfer count 2176 and no argument word. -/
theorem create_cmd_header_word0_encoding_witness :
    (PioCmdBuilder.create_cmd_header 3 0x7F00 2176 none).head? =
      some ((3 <<< 28) ||| ((2176 - 1) <<< 16) ||| 0x7F00) :=
  create_cmd_header_word0_encoding 3 0x7F00 2176 none (by decide) (by decide)
    (by decide) (by decide)

/-! ## C3 -/

/-- C3 (spec-modelled codec): decoding an encoded in-range
(chip, block, page, sector) tuple returns the tuple, and the encoding is
injective on the in-range domain. -/
theorem phys_addr_codec_roundtrip_injective :
    ∀ chip block page sector : Nat,
      chip < 2 → block < 1024 → page < 64 → sector < 4 →
      NandConfig.decode_phys_addr
          (NandConfig.encode_phys_addr chip block page sector) =
        (chip, block, page, sector) ∧
      (∀ c2 b2 p2 s2 : Nat, c2 < 2 → b2 < 1024 → p2 < 64 → s2 < 4 →
        NandConfig.encode_phys_addr chip block page sector =
          NandConfig.encode_phys_addr c2 b2 p2 s2 →
        chip = c2 ∧ block = b2 ∧ page = p2 ∧ sector = s2) := by
  intro chip block page sector hc hb hp hs
  constructor
  · simp only [NandConfig.encode_phys_addr, NandConfig.decode_phys_addr,
      NandConfig.BLOCKS_PER_CS, NandConfig.PAGES_PER_BLOCK,
      NandConfig.SECTOR_PER_PAGE, NandConfig.PAGE_USABLE_BYTES,
      NandConfig.SECTOR_BYTES, Prod.mk.injEq]
    norm_num
    omega
  · intro c2 b2 p2 s2 hc2 hb2 hp2 hs2 heq
    simp only [NandConfig.encode_phys_addr, NandConfig.BLOCKS_PER_CS,
      NandConfig.PAGES_PER_BLOCK, NandConfig.SECTOR_PER_PAGE,
      NandConfig.PAGE_USABLE_BYTES, NandConfig.SECTOR_BYTES] at heq
    norm_num at heq
    omega

/-- C3 witness: the round trip and injectivity instantiated at
(1, 1023, 63, 3) and (0, 0, 0, 0). -/
theorem phys_addr_codec_roundtrip_injective_witness :
    NandConfig.decode_phys_addr (NandConfig.encode_phys_addr 1 1023 63 3) =
      (1, 1023, 63, 3) ∧
    (NandConfig.encode_phys_addr 1 1023 63 3 =
        NandConfig.encode_phys_addr 0 0 0 0 →
      (1 : Nat) = 0 ∧ (1023 : Nat) = 0 ∧ (63 : Nat) = 0 ∧ (3 : Nat) = 0) := by
  have h := phys_addr_codec_roundtrip_injective 1 1023 63 3 (by decide)
    (by decide) (by decide) (by decide)
  exact ⟨h.1, fun heq => h.2 0 0 0 0 (by decide) (by decide) (by decide)
    (by decide) heq⟩

/-! ## C9 -/

/-- C9: for a payload of exactly PAGE_USABLE_BYTES, encode appends the
spare framing bytes to reach exactly PAGE_ALL_BYTES with the payload as
prefix, and decode inverts encode. -/
theorem page_codec_roundtrip (P : List Nat)
    (h : P.length = NandConfig.PAGE_USABLE_BYTES) :
    (PageCodec.encode P).length = NandConfig.PAGE_ALL_BYTES ∧
    (PageCodec.encode P).take NandConfig.PAGE_USABLE_BYTES = P ∧
    (PageCodec.encode P).drop NandConfig.PAGE_USABLE_BYTES =
      List.replicate NandConfig.PAGE_SPARE_BYTES 0x00 ∧
    PageCodec.decode (PageCodec.encode P) = some P := by
  refine ⟨?_, ?_, ?_, ?_⟩
  · simp [PageCodec.encode, NandConfig.PAGE_ALL_BYTES, h]
  · exact List.take_left' h
  · exact List.drop_left' h
  · simp only [PageCodec.decode, PageCodec.encode]
    rw [List.take_left' h]

/-- C9 witness: the codec round trip at the all-0x5A payload. -/
theorem page_codec_roundtrip_witness :
    (PageCodec.encode (List.replicate 2048 0x5A)).length =
      NandConfig.PAGE_ALL_BYTES ∧
    PageCodec.decode (PageCodec.encode (List.replicate 2048 0x5A)) =
      some (List.replicate 2048 0x5A) := by
  have h := page_codec_roundtrip (List.replicate 2048 0x5A)
    (by simp [NandConfig.PAGE_USABLE_BYTES])
  exact ⟨h.1, h.2.2.2⟩

/-! ## C10 -/

/-- C10: decode returns a value for every PAGE_ALL_BYTES input (the
reference codec has no failing path), so read_page never takes the
decode-failure branch when the NAND read itself succeeded: a successful
raw read always yields a decoded page. -/
theorem page_codec_decode_total_read_path :
    (∀ d : List Nat, d.length = NandConfig.PAGE_ALL_BYTES →
      PageCodec.decode d ≠ none) ∧
    (∀ (s : FtlState) (chip block page : Nat) (raw : List Nat),
      s.nand_pages (chip, block, page) = some raw →
      s.read_page chip block page =
        some (raw.take NandConfig.PAGE_USABLE_BYTES) ∧
      s.read_page chip block page ≠ none) := by
  constructor
  · intro d _
    simp [PageCodec.decode]
  · intro s chip block page raw hread
    constructor
    · simp [FtlState.read_page, hread, PageCodec.decode]
    · simp [FtlState.read_page, hread, PageCodec.decode]

/-! ## C4 -/

/-- Low byte of the composite row address. -/
theorem addr_row_low_byte (P B : Nat) (hP : P < 2 ^ 6) :
    (P ||| (B <<< 6)) % 2 ^ 8 = P ||| ((B % 2 ^ 2) <<< 6) := by
  apply Nat.eq_of_testBit_eq
  intro i
  rw [Nat.testBit_mod_two_pow, Nat.testBit_or, Nat.testBit_or,
    Nat.testBit_shiftLeft, Nat.testBit_shiftLeft, Nat.testBit_mod_two_pow]
  by_cases h8 : i < 8
  · by_cases h6 : 6 ≤ i
    · have hlt : i - 6 < 2 := by omega
      have hp : P.testBit i = false := testBit_false_of_le hP h6
      simp [h8, h6, hlt, hp]
    · simp [h8, h6]
  · have h6 : 6 ≤ i := by omega
    have hge : ¬ i - 6 < 2 := by omega
    have hp : P.testBit i = false := testBit_false_of_le hP (by omega)
    simp [h8, h6, hge, hp]

/-- High byte of the composite row address. -/
theorem addr_row_high_byte (P B : Nat) (hP : P < 2 ^ 6) :
    ((P ||| (B <<< 6)) >>> 8) % 2 ^ 8 = (B >>> 2) % 2 ^ 8 := by
  apply Nat.eq_of_testBit_eq
  intro i
  rw [Nat.testBit_mod_two_pow, Nat.testBit_mod_two_pow, Nat.testBit_shiftRight,
    Nat.testBit_shiftRight, Nat.testBit_or, Nat.testBit_shiftLeft]
  have hp : P.testBit (8 + i) = false := testBit_false_of_le hP (by omega)
  have h6 : 6 ≤ 8 + i := by omega
  have he : 8 + i - 6 = 2 + i := by omega
  simp [hp, h6, he]

/-- C4: for in-range column, page and block, create_full_addr produces
exactly the four bytes
[C and 0xFF, (C >> 8) and 0x0F, (P and 0x3F) or ((B and 0x03) << 6),
(B >> 2) and 0xFF]. -/
theorem create_full_addr_byte_layout (C P B : Nat)
    (hC : C ≤ 4095) (hP : P ≤ 63) (hB : B ≤ 1023) :
    NandAddr.create_full_addr C P B =
      [C &&& 0xFF, (C >>> 8) &&& 0x0F,
        (P &&& 0x3F) ||| ((B &&& 0x03) <<< 6), (B >>> 2) &&& 0xFF] ∧
    (NandAddr.create_full_addr C P B).length = 4 := by
  have hCm : C &&& 0xFFF = C := by
    rw [show (0xFFF : Nat) = 2 ^ 12 - 1 from by norm_num,
      Nat.and_pow_two_sub_one_eq_mod]
    exact Nat.mod_eq_of_lt (by norm_num; omega)
  have hPm : P &&& 0x3F = P := by
    rw [show (0x3F : Nat) = 2 ^ 6 - 1 from by norm_num,
      Nat.and_pow_two_sub_one_eq_mod]
    exact Nat.mod_eq_of_lt (by norm_num; omega)
  have hBm : B &&& 0x3FF = B := by
    rw [show (0x3FF : Nat) = 2 ^ 10 - 1 from by norm_num,
      Nat.and_pow_two_sub_one_eq_mod]
    exact Nat.mod_eq_of_lt (by norm_num; omega)
  have hP6 : P < 2 ^ 6 := by norm_num; omega
  have h3 : (P ||| (B <<< 6)) &&& 0xFF = P ||| ((B &&& 0x03) <<< 6) := by
    rw [show (0xFF : Nat) = 2 ^ 8 - 1 from by norm_num,
      Nat.and_pow_two_sub_one_eq_mod,
      show (0x03 : Nat) = 2 ^ 2 - 1 from by norm_num,
      Nat.and_pow_two_sub_one_eq_mod]
    exact addr_row_low_byte P B hP6
  have h4 : ((P ||| (B <<< 6)) >>> 8) &&& 0xFF = (B >>> 2) &&& 0xFF := by
    rw [show (0xFF : Nat) = 2 ^ 8 - 1 from by norm_num,
      Nat.and_pow_two_sub_one_eq_mod, Nat.and_pow_two_sub_one_eq_mod]
    exact addr_row_high_byte P B hP6
  refine ⟨?_, by simp [NandAddr.create_full_addr]⟩
  simp only [NandAddr.create_full_addr, hCm, hPm, hBm, h3, h4]

/-- C4 witness: the byte layout at the program-trace example
(CA, PA, BA) = (256, 2, 3) from the spec, where the bytes are
[0x00, 0x01, 0xC2, 0x00]. -/
theorem create_full_addr_byte_layout_witness :
    NandAddr.create_full_addr 256 2 3 =
      [256 &&& 0xFF, (256 >>> 8) &&& 0x0F,
        (2 &&& 0x3F) ||| ((3 &&& 0x03) <<< 6), (3 >>> 2) &&& 0xFF] ∧
    (NandAddr.create_full_addr 256 2 3).length = 4 :=
  create_full_addr_byte_layout 256 2 3 (by decide) (by decide) (by decide)

/-! ## C2 -/

/-- getD after set at the written index. -/
theorem getD_set_self (l : List Nat) (c v : Nat) (hc : c < l.length) :
    (l.set c v).getD c 0 = v := by
  simp [List.getD_eq_getElem?_getD, List.getElem?_set, hc]

/-- getD after set at a different index. -/
theorem getD_set_other (l : List Nat) (c c' v : Nat) (h : c ≠ c') :
    (l.set c v).getD c' 0 = l.getD c' 0 := by
  simp [List.getD_eq_getElem?_getD, List.getElem?_set, h]

/-- A bitmap update that ors in a mask preserves every set bit through
getD/set, at any chip index. -/
theorem getD_set_or_mono (l : List Nat) (c c' m i : Nat)
    (h : (l.getD c' 0).testBit i = true) :
    ((l.set c (l.getD c 0 ||| m)).getD c' 0).testBit i = true := by
  by_cases hcc : c = c'
  · subst hcc
    by_cases hlen : c < l.length
    · rw [getD_set_self _ _ _ hlen, Nat.testBit_or, h]
      rfl
    · rw [List.set_eq_of_length_le (by omega)]
      exact h
  · rw [getD_set_other _ _ _ _ hcc]
    exact h

/-- NandBlockManager._mark_alloc preserves the bad-subset-allocated
invariant: it only sets an allocated bit. -/
theorem mark_alloc_preserves_subset (s : BMState) (c b : Nat) (s' : BMState)
    (hsub : s.badSubsetAllocated) (hok : s.mark_alloc c b = .ok s') :
    s'.badSubsetAllocated := by
  rw [BMState.mark_alloc] at hok
  split at hok
  · exact Except.noConfusion hok
  · injection hok with hok
    subst hok
    intro c' hc' i hbit
    exact getD_set_or_mono _ _ _ _ _ (hsub c' hc' i hbit)

/-- NandBlockManager._mark_free preserves the invariant when the freed
block is not marked bad: the cleared allocated bit has a clear bad bit. -/
theorem mark_free_preserves_subset (s : BMState) (c b : Nat) (s' : BMState)
    (hsub : s.badSubsetAllocated)
    (hbad : (s.badblock_bitmaps.getD c 0).testBit b = false)
    (hok : s.mark_free c b = .ok s') : s'.badSubsetAllocated := by
  rw [BMState.mark_free] at hok
  split at hok
  · exact Except.noConfusion hok
  · injection hok with hok
    subst hok
    intro c' hc' i hbit
    have halloc := hsub c' hc' i hbit
    by_cases hcc : c = c'
    · subst hcc
      by_cases hlen : c < s.allocated_bitmaps.length
      · rw [getD_set_self _ _ _ hlen, Nat.testBit_ldiff, halloc,
          Nat.one_shiftLeft, Nat.testBit_two_pow]
        have hbi : b ≠ i := by
          intro h
          subst h
          rw [hbit] at hbad
          exact Bool.noConfusion hbad
        simp [hbi]
      · rw [List.set_eq_of_length_le (by omega)]
        exact halloc
    · rw [getD_set_other _ _ _ _ hcc]
      exact halloc

/-- NandBlockManager._mark_bad changes no allocated bit and only adds
bad bits. -/
theorem mark_bad_sets_only_bad (s : BMState) (c b : Nat) :
    (s.mark_bad c b).allocated_bitmaps = s.allocated_bitmaps ∧
    (s.mark_bad c b).num_chip = s.num_chip ∧
    ∀ c' i, (s.badblock_bitmaps.getD c' 0).testBit i = true →
      (((s.mark_bad c b).badblock_bitmaps.getD c' 0)).testBit i = true := by
  refine ⟨rfl, rfl, ?_⟩
  intro c' i hbit
  exact getD_set_or_mono _ _ _ _ _ hbit

/-- NandBlockManager.alloc preserves the invariant whenever the erase of
the picked block succeeds (only _mark_alloc runs). -/
theorem alloc_erase_ok_preserves_subset (er : Nat → Nat → Bool) (s : BMState)
    (c b : Nat) (s' : BMState) (hall : ∀ c' b', er c' b' = true)
    (hsub : s.badSubsetAllocated) (hok : s.alloc er = .ok ((c, b), s')) :
    s'.badSubsetAllocated := by
  unfold BMState.alloc at hok
  cases hp : s.pick_free with
  | none =>
    simp only [BMState.allocGo, hp] at hok
    exact Except.noConfusion hok
  | some cb =>
    obtain ⟨c0, b0⟩ := cb
    have her : er c0 b0 = true := hall c0 b0
    simp only [BMState.allocGo, hp, her, if_true] at hok
    cases hma : s.mark_alloc c0 b0 with
    | error e => rw [hma] at hok; exact Except.noConfusion hok
    | ok s'' =>
      rw [hma] at hok
      injection hok with hok
      have hs : s'' = s' := congrArg Prod.snd hok
      subst hs
      exact mark_alloc_preserves_subset s c0 b0 s'' hsub hma

/-- getD of the allocated bitmaps list built by init. -/
theorem init_allocated_getD (nc : Nat) (bad : List Nat) (c : Nat) (hc : c < nc) :
    (BMState.init nc bad).allocated_bitmaps.getD c 0 = bad.getD c 0 := by
  show ((List.range nc).map fun c => bad.getD c 0).getD c 0 = bad.getD c 0
  rw [List.getD_eq_getElem?_getD, List.getElem?_map, List.getElem?_range hc]
  rfl

/-- C2 (amended): allocated equals bad immediately after init, so the
subset invariant holds there; _mark_alloc preserves it, _mark_free
preserves it when the freed block is not bad, and alloc() preserves it
when the erase succeeds. It does not survive arbitrary sequences: the
erase-failure path (_mark_bad) sets only the bad bit and leaves the
allocated bitmaps unchanged, breaking allocated superset of bad. -/
theorem badblock_subset_allocated_amended :
    (∀ (nc : Nat) (bad : List Nat), (BMState.init nc bad).badSubsetAllocated ∧
      ∀ c, c < nc →
        (BMState.init nc bad).allocated_bitmaps.getD c 0 = bad.getD c 0) ∧
    (∀ (s : BMState) (c b : Nat) (s' : BMState), s.badSubsetAllocated →
      s.mark_alloc c b = .ok s' → s'.badSubsetAllocated) ∧
    (∀ (s : BMState) (c b : Nat) (s' : BMState), s.badSubsetAllocated →
      (s.badblock_bitmaps.getD c 0).testBit b = false →
      s.mark_free c b = .ok s' → s'.badSubsetAllocated) ∧
    (∀ (er : Nat → Nat → Bool) (s : BMState) (c b : Nat) (s' : BMState),
      (∀ c' b', er c' b' = true) → s.badSubsetAllocated →
      s.alloc er = .ok ((c, b), s') → s'.badSubsetAllocated) ∧
    (∀ (s : BMState) (c b : Nat),
      (s.mark_bad c b).allocated_bitmaps = s.allocated_bitmaps) := by
  refine ⟨?_, mark_alloc_preserves_subset, mark_free_preserves_subset,
    alloc_erase_ok_preserves_subset, fun s c b => rfl⟩
  intro nc bad
  refine ⟨?_, fun c hc => init_allocated_getD nc bad c hc⟩
  intro c hc i hbit
  have h := init_allocated_getD nc bad c hc
  show ((BMState.init nc bad).allocated_bitmaps.getD c 0).testBit i = true
  rw [h]
  exact hbit

/-- C2 counterexample: starting from the post-init state of one chip
with no factory bad blocks, a single alloc() whose erase fails on
block 0 (and succeeds on block 1) yields a state in which bad bit 0 is
set while allocated bit 0 is clear: allocated is no longer a superset of
bad, refuting the claim for the erase-failure path. -/
theorem badblock_subset_allocated_counterexample :
    (BMState.init 1 [0]).alloc (fun _ b => b != 0) =
      .ok ((0, 1), ⟨1, [1], [2]⟩) ∧
    ¬ BMState.badSubsetAllocated ⟨1, [1], [2]⟩ := by
  constructor
  · rfl
  · intro h
    have hcontra := h 0 (by decide) 0 (by decide)
    exact absurd hcontra (by decide)

/-- All-zero bad bitmap satisfies the subset invariant vacuously. -/
theorem badSubsetAllocated_zero_bad (nc : Nat) (al : List Nat) :
    BMState.badSubsetAllocated ⟨nc, [0], al⟩ := by
  intro c hc i hbit
  have h0 : (([0] : List Nat).getD c 0) = 0 := by
    cases c
    · rfl
    · rfl
  rw [h0, Nat.zero_testBit] at hbit
  exact Bool.noConfusion hbit

/-- C2 witness: the amended statement instantiated on concrete states:
init with two chips, one successful mark_alloc, one mark_free of a
non-bad block, one alloc with an always-successful erase, and the
mark_bad allocated-bitmap equation. -/
theorem badblock_subset_allocated_amended_witness :
    (BMState.init 2 [0, 0]).badSubsetAllocated ∧
    BMState.badSubsetAllocated ⟨1, [0], [1]⟩ ∧
    BMState.badSubsetAllocated ⟨1, [0], [0]⟩ ∧
    ((⟨1, [0], [0]⟩ : BMState).mark_bad 0 0).allocated_bitmaps = [0] := by
  obtain ⟨h1, h2, h3, h4, h5⟩ := badblock_subset_allocated_amended
  have hld : Nat.ldiff 1 1 = 0 := by
    apply Nat.eq_of_testBit_eq
    intro i
    rw [Nat.testBit_ldiff, Nat.zero_testBit, Bool.and_not_self]
  have hfree : (⟨1, [0], [1]⟩ : BMState).mark_free 0 0 = .ok ⟨1, [0], [0]⟩ := by
    rw [BMState.mark_free, if_neg (by decide)]
    rw [show (([1] : List Nat).getD 0 0) = 1 from rfl,
      show (1 <<< 0 : Nat) = 1 from rfl, hld]
    rfl
  refine ⟨(h1 2 [0, 0]).1, ?_, ?_, h5 ⟨1, [0], [0]⟩ 0 0⟩
  · exact h4 (fun _ _ => true) ⟨1, [0], [0]⟩ 0 0 ⟨1, [0], [1]⟩
      (fun _ _ => rfl) (badSubsetAllocated_zero_bad 1 [0]) rfl
  · exact h3 ⟨1, [0], [1]⟩ 0 0 ⟨1, [0], [0]⟩
      (badSubsetAllocated_zero_bad 1 [1]) (by decide) hfree

/-! ## C6 -/

/-- A pair found by pick_free lies in the scan range: the chip index is
below num_chip. -/
theorem pick_free_chip_lt (s : BMState) (c b : Nat)
    (hp : s.pick_free = some (c, b)) : c < s.num_chip := by
  have hmem := List.mem_of_find?_eq_some hp
  rw [BMState.scanOrder] at hmem
  obtain ⟨a, ha, hmm⟩ := List.mem_flatMap.mp hmem
  obtain ⟨b', _, heq⟩ := List.mem_map.mp hmm
  have hac : a = c := congrArg Prod.fst heq
  subst hac
  exact List.mem_range.mp ha

/-- C6: alloc scans chips then blocks in index order and picks the first
free (neither allocated nor bad) block; a successful erase marks it
allocated and returns it; a failed erase sets that block's bad bit and
the retry cannot pick the same block again; an empty scan raises the
no-free-block error. -/
theorem alloc_scan_order_and_bad_block_promotion :
    (∀ s : BMState, s.pick_free = s.freeCandidates.head?) ∧
    (∀ (er : Nat → Nat → Bool) (s : BMState) (c b : Nat),
      s.pick_free = some (c, b) → er c b = true →
      s.alloc er = .ok ((c, b),
        { s with allocated_bitmaps := s.allocated_bitmaps.set c (s.allocated_bitmaps.getD c 0 ||| (1 <<< b)) })) ∧
    (∀ (er : Nat → Nat → Bool) (s : BMState) (c b : Nat),
      s.badblock_bitmaps.length = s.num_chip →
      s.pick_free = some (c, b) → er c b = false →
      s.alloc er =
        BMState.allocGo er (s.num_chip * NandConfig.BLOCKS_PER_CS)
          (s.mark_bad c b) ∧
      (s.mark_bad c b).pick_free ≠ some (c, b)) ∧
    (∀ (er : Nat → Nat → Bool) (s : BMState),
      s.pick_free = none → s.alloc er = .error "No Free Block") := by
  refine ⟨fun s => find?_eq_filter_head? _ _, ?_, ?_, ?_⟩
  · intro er s c b hp her
    have hfree := List.find?_some hp
    simp only [BMState.isFreeBlock, Bool.and_eq_true, beq_iff_eq] at hfree
    obtain ⟨hA, _⟩ := hfree
    unfold BMState.alloc
    simp only [BMState.allocGo, hp, her, if_true]
    rw [BMState.mark_alloc]
    rw [List.getD_eq_getElem?_getD] at hA
    simp [hA]
  · intro er s c b hlen hp her
    constructor
    · unfold BMState.alloc
      simp [BMState.allocGo, hp, her]
    · intro hcontra
      have hfree := List.find?_some hcontra
      simp only [BMState.isFreeBlock, Bool.and_eq_true, beq_iff_eq] at hfree
      have hc : c < s.num_chip := pick_free_chip_lt s c b hp
      have hclen : c < s.badblock_bitmaps.length := by rw [hlen]; exact hc
      have hbb : (s.mark_bad c b).badblock_bitmaps =
          s.badblock_bitmaps.set c
            (s.badblock_bitmaps.getD c 0 ||| (1 <<< b)) := rfl
      have hbadbit := hfree.2
      rw [hbb, getD_set_self _ _ _ hclen, Nat.one_shiftLeft, Nat.and_two_pow,
        Nat.testBit_or, Nat.testBit_two_pow_self, Bool.or_true] at hbadbit
      simp at hbadbit
  · intro er s hp
    unfold BMState.alloc
    simp [BMState.allocGo, hp]

/-- C6 witness: the four parts applied to the one-chip post-init state
with no bad blocks: the scan picks (0, 0); a successful erase allocates
it; a failing erase marks it bad and the retry avoids it; a zero-chip
state exhausts with the no-free-block error. -/
theorem alloc_scan_order_and_bad_block_promotion_witness :
    (BMState.init 1 [0]).pick_free =
      (BMState.init 1 [0]).freeCandidates.head? ∧
    (BMState.init 1 [0]).alloc (fun _ _ => true) =
      .ok ((0, 0), { BMState.init 1 [0] with allocated_bitmaps := ((BMState.init 1 [0]).allocated_bitmaps.set 0 ((BMState.init 1 [0]).allocated_bitmaps.getD 0 0 ||| (1 <<< 0))) }) ∧
    ((BMState.init 1 [0]).mark_bad 0 0).pick_free ≠ some (0, 0) ∧
    (⟨0, [], []⟩ : BMState).alloc (fun _ _ => true) =
      .error "No Free Block" := by
  obtain ⟨h1, h2, h3, h4⟩ := alloc_scan_order_and_bad_block_promotion
  exact ⟨h1 (BMState.init 1 [0]),
    h2 (fun _ _ => true) (BMState.init 1 [0]) 0 0 rfl rfl,
    (h3 (fun _ _ => false) (BMState.init 1 [0]) 0 0 rfl rfl rfl).2,
    h4 (fun _ _ => true) ⟨0, [], []⟩ rfl⟩

/-! ## C1 -/

/-- C1 evidence: two buffered writes of the same LBA into the same
in-progress write buffer (write pointer at sector 0, buffer LBA list
empty), then a read of that LBA. read_logical finds the lba with
Python list.index, i.e. the FIRST occurrence in write_buffer_lbas, so it
returns the sector slot of the first write: the stale payload A, not B. -/
theorem overwrite_in_buffer_returns_first_write
    (er : Nat → Nat → Bool) (prog : Nat → Nat → Nat → Bool)
    (bm : BMState) (np : Nat × Nat × Nat → Option (List Nat))
    (mp : Nat → Option Nat) (w : List Nat) (chip block page lba : Nat)
    (A B : List Nat) (hA : A.length = NandConfig.SECTOR_BYTES)
    (hAB : A ≠ B) :
    ∃ s1 s2 : FtlState,
      FtlState.write_logical er prog
        ⟨bm, np, mp, w, [], some chip, some block, some page, some 0⟩
        lba A = .ok (true, s1) ∧
      FtlState.write_logical er prog s1 lba B = .ok (true, s2) ∧
      FtlState.read_logical s2 lba = A ∧
      FtlState.read_logical s2 lba ≠ B := by
  have h512 : A.length = 512 := hA
  refine ⟨_, _, rfl, rfl, ?_, ?_⟩
  · simp [FtlState.read_logical, FtlState.mapUpdate, NandConfig.SECTOR_BYTES,
      List.indexOf_cons, List.take_left' h512]
  · simp [FtlState.read_logical, FtlState.mapUpdate, NandConfig.SECTOR_BYTES,
      List.indexOf_cons, List.take_left' h512]
    exact hAB

/-- C1 witness: the failing input. From a write pointer at
(chip 0, block 0, page 0, sector 0) with an empty buffer LBA list,
write A = 512 x 0xAA then B = 512 x 0xBB to LBA 5; read_logical 5
returns A, not B. -/
theorem overwrite_in_buffer_returns_first_write_witness :
    ∃ s1 s2 : FtlState,
      FtlState.write_logical (fun _ _ => true) (fun _ _ _ => true)
        ⟨BMState.init 2 [0, 0], fun _ => none, fun _ => none,
          List.replicate 2048 0x0, [], some 0, some 0, some 0, some 0⟩
        5 (List.replicate 512 0xAA) = .ok (true, s1) ∧
      FtlState.write_logical (fun _ _ => true) (fun _ _ _ => true) s1 5
        (List.replicate 512 0xBB) = .ok (true, s2) ∧
      FtlState.read_logical s2 5 = List.replicate 512 0xAA ∧
      FtlState.read_logical s2 5 ≠ List.replicate 512 0xBB := by
  have hAB : List.replicate 512 0xAA ≠ List.replicate (512 : Nat) 0xBB := by
    intro h
    have h0 := congrArg (fun l => l.getD 0 0) h
    simp [List.getD_eq_getElem?_getD, List.getElem?_replicate] at h0
  exact overwrite_in_buffer_returns_first_write (fun _ _ => true)
    (fun _ _ _ => true) (BMState.init 2 [0, 0]) (fun _ => none)
    (fun _ => none) (List.replicate 2048 0x0) 0 0 0 5
    (List.replicate 512 0xAA) (List.replicate 512 0xBB)
    (by simp [NandConfig.SECTOR_BYTES]) hAB

/-- C10 witness: decode of a concrete 2176-byte page, and read_page on a
state whose NAND store holds a raw page at (0, 0, 0). -/
theorem page_codec_decode_total_read_path_witness :
    PageCodec.decode (List.replicate 2176 0x00) ≠ none ∧
    FtlState.read_page
      ⟨BMState.init 1 [0],
        (fun k => if k = (0, 0, 0) then some (List.replicate 2176 0x7) else none),
        fun _ => none, List.replicate 2048 0x0, [], none, none, none, none⟩
      0 0 0 ≠ none := by
  obtain ⟨h1, h2⟩ := page_codec_decode_total_read_path
  refine ⟨h1 (List.replicate 2176 0x00)
    (by norm_num [NandConfig.PAGE_ALL_BYTES, NandConfig.PAGE_USABLE_BYTES,
      NandConfig.PAGE_SPARE_BYTES]), ?_⟩
  exact (h2 _ 0 0 0 (List.replicate 2176 0x7) rfl).2
